import Mathlib

/-!
Verification development for the nuclear-news API service
(`apps/api/app`): the AI article processor (`services/ai/processor.py`),
the articles router (`routers/articles.py`), the article data model
(`models/article.py`, `schemas/article.py`) and the scraper base adapter
(`services/scraper/base.py`).

Python strings are embedded as `List Char`; the string operations the
source uses (`in`, `str.split`, `str.strip`) are modelled below with
Python's semantics.
-/

abbrev Str := List Char

/-- Model of Python's left-to-right substring scan: the first index at
which `sep` occurs in `l`, or `none` when it does not occur.  This is the
scan underlying Python's `sep in s` test and `s.split(sep)`. -/
def pyFind (sep : Str) : Str → Option Nat
  | [] => if sep.isPrefixOf ([] : Str) then some 0 else none
  | c :: rest =>
      if sep.isPrefixOf (c :: rest) then some 0
      else (pyFind sep rest).map (· + 1)

/-- Model of Python's `sep in s` membership test on strings. -/
def pyContains (sep l : Str) : Bool := (pyFind sep l).isSome

theorem pyFind_nil (sep : Str) (h : sep ≠ []) : pyFind sep [] = none := by
  cases sep with
  | nil => exact absurd rfl h
  | cons c cs => rfl

theorem pyFind_some_isPrefixOf {sep l : Str} {i : Nat}
    (h : pyFind sep l = some i) : sep.isPrefixOf (l.drop i) = true := by
  induction l generalizing i with
  | nil =>
      by_cases hp : sep.isPrefixOf ([] : Str)
      · simp [pyFind, hp] at h
        subst h
        simpa using hp
      · simp [pyFind, hp] at h
  | cons c rest ih =>
      by_cases hp : sep.isPrefixOf (c :: rest)
      · simp [pyFind, hp] at h
        subst h
        simpa using hp
      · simp [pyFind, hp] at h
        obtain ⟨j, hj, hji⟩ := h
        subst hji
        simpa using ih hj

theorem pyFind_some_le {sep l : Str} {i : Nat}
    (h : pyFind sep l = some i) : i + sep.length ≤ l.length := by
  induction l generalizing i with
  | nil =>
      by_cases hp : sep.isPrefixOf ([] : Str)
      · simp [pyFind, hp] at h
        subst h
        rw [List.isPrefixOf_iff_prefix] at hp
        have := hp.length_le
        simpa using this
      · simp [pyFind, hp] at h
  | cons c rest ih =>
      by_cases hp : sep.isPrefixOf (c :: rest)
      · simp [pyFind, hp] at h
        subst h
        rw [List.isPrefixOf_iff_prefix] at hp
        have := hp.length_le
        simpa using this
      · simp [pyFind, hp] at h
        obtain ⟨j, hj, hji⟩ := h
        have := ih hj
        simp [← hji, List.length_cons]
        omega

/-- Fuel-driven worker for `pySplit`; the fuel strictly dominates the
input length, so it never runs out on the exposed entry point. -/
def pySplitF : Nat → Str → Str → List Str
  | 0, _, l => [l]
  | fuel + 1, sep, l =>
      match pyFind sep l with
      | none => [l]
      | some i => l.take i :: pySplitF fuel sep (l.drop (i + sep.length))

/-- Model of Python's `s.split(sep)` for a non-empty separator: cut `l`
at every (leftmost, non-overlapping) occurrence of `sep`, dropping the
separators. -/
def pySplit (sep l : Str) : List Str := pySplitF (l.length + 1) sep l

theorem pySplitF_fuel_congr {sep : Str} (hsep : sep ≠ []) :
    ∀ (fuel₁ : Nat) (fuel₂ : Nat) (l : Str),
      l.length < fuel₁ → l.length < fuel₂ →
      pySplitF fuel₁ sep l = pySplitF fuel₂ sep l := by
  intro fuel₁
  induction fuel₁ with
  | zero => intro fuel₂ l h1 _; omega
  | succ f1 ih =>
      intro fuel₂ l h1 h2
      cases fuel₂ with
      | zero => omega
      | succ f2 =>
          show pySplitF (f1 + 1) sep l = pySplitF (f2 + 1) sep l
          cases hfind : pyFind sep l with
          | none => simp [pySplitF, hfind]
          | some i =>
              have hle := pyFind_some_le hfind
              have hpos : 0 < sep.length := List.length_pos.mpr hsep
              have hlen : (l.drop (i + sep.length)).length < l.length := by
                simp [List.length_drop]
                omega
              simp only [pySplitF, hfind]
              rw [ih f2 (l.drop (i + sep.length)) (by omega) (by omega)]

theorem pySplitF_succ (fuel : Nat) (sep l : Str) :
    pySplitF (fuel + 1) sep l =
      match pyFind sep l with
      | none => [l]
      | some i => l.take i :: pySplitF fuel sep (l.drop (i + sep.length)) :=
  rfl

theorem pySplit_of_none {sep l : Str} (hsep : sep ≠ [])
    (h : pyFind sep l = none) : pySplit sep l = [l] := by
  rw [pySplit, pySplitF_succ, h]

theorem pySplit_of_some {sep l : Str} {i : Nat} (hsep : sep ≠ [])
    (h : pyFind sep l = some i) :
    pySplit sep l = l.take i :: pySplit sep (l.drop (i + sep.length)) := by
  have hle := pyFind_some_le h
  have hpos : 0 < sep.length := List.length_pos.mpr hsep
  have hlen : (l.drop (i + sep.length)).length < l.length := by
    simp [List.length_drop]
    omega
  rw [pySplit, pySplitF_succ, h]
  show _ :: _ = _ :: pySplitF _ sep _
  exact congrArg _ (pySplitF_fuel_congr hsep l.length _ _ (by omega) (by omega))

/-- The whitespace predicate of Python's `str.strip()` (ASCII part). -/
def pyWS (c : Char) : Bool :=
  (c == ' ') || (c == '\t') || (c == '\n') || (c == '\r') ||
  (c == '\x0b') || (c == '\x0c')

def pyStripLeft (l : Str) : Str := l.dropWhile pyWS

def pyStripRight (l : Str) : Str := (l.reverse.dropWhile pyWS).reverse

/-- Model of Python's `s.strip()`: remove leading and trailing
whitespace. -/
def pyStrip (l : Str) : Str := pyStripRight (pyStripLeft l)

theorem pyFind_append_right (sep b : Str) : pyFind sep (sep ++ b) = some 0 := by
  have hp : sep.isPrefixOf (sep ++ b) = true := by
    rw [List.isPrefixOf_iff_prefix]
    exact List.prefix_append sep b
  cases hl : sep ++ b with
  | nil =>
      rw [hl] at hp
      simp [pyFind, hp]
  | cons c rest =>
      rw [hl] at hp
      simp [pyFind, hp]

theorem pyFind_cons_not_mem {sep : Str} {c : Char} (hne : sep ≠ [])
    (hc : c ∉ sep) (y : Str) :
    pyFind sep (c :: y) = (pyFind sep y).map (· + 1) := by
  have hp : sep.isPrefixOf (c :: y) = false := by
    by_contra hcon
    rw [Bool.not_eq_false, List.isPrefixOf_iff_prefix] at hcon
    obtain ⟨r, hr⟩ := hcon
    cases sep with
    | nil => exact hne rfl
    | cons s ss =>
        have hs : s = c := by
          have := congrArg (List.head? ·) hr
          simpa using this
        exact hc (hs ▸ List.mem_cons_self s ss)
  simp [pyFind, hp]

theorem mem_of_prefix_append_cons {sep x t : Str} {c : Char}
    (h : sep <+: x ++ c :: t) (hnx : ¬ sep <+: x) : c ∈ sep := by
  obtain ⟨r, hr⟩ := h
  rcases List.append_eq_append_iff.mp hr with ⟨a', h1, _⟩ | ⟨c', h1, h2⟩
  · exact absurd ⟨a', h1.symm⟩ hnx
  · cases c' with
    | nil =>
        rw [List.append_nil] at h1
        exact absurd (h1 ▸ List.prefix_refl x) hnx
    | cons d ds =>
        have hd : d = c := by
          have := congrArg (List.head? ·) h2
          simpa using this.symm
        rw [h1, hd]
        exact List.mem_append_right x (List.mem_cons_self c ds)

theorem pyFind_sandwich {sep x y : Str} {c : Char} (hne : sep ≠ [])
    (hc : c ∉ sep) (hx : pyFind sep x = none) :
    pyFind sep (x ++ c :: y) = (pyFind sep (c :: y)).map (· + x.length) := by
  induction x with
  | nil => simp
  | cons d ds ih =>
      by_cases hp : sep <+: (d :: ds)
      · simp [pyFind, hp] at hx
      · simp [pyFind, hp] at hx
        have hnp : ¬ sep <+: d :: (ds ++ c :: y) := fun hcon =>
          hc (mem_of_prefix_append_cons (x := d :: ds)
            (by simpa using hcon) hp)
        have hstep : pyFind sep (d :: ds ++ c :: y) =
            (pyFind sep (ds ++ c :: y)).map (· + 1) := by
          simp [pyFind, hnp]
        rw [hstep, ih hx]
        cases pyFind sep (c :: y) with
        | none => rfl
        | some k =>
            simp [List.length_cons]
            omega

theorem pyFind_none_mono {sep sep' l : Str} (hps : sep' <+: sep)
    (h : pyFind sep' l = none) : pyFind sep l = none := by
  induction l with
  | nil =>
      by_cases hp : sep.isPrefixOf ([] : Str)
      · rw [List.isPrefixOf_iff_prefix, List.prefix_nil] at hp
        subst hp
        have : sep' = [] := List.prefix_nil.mp hps
        subst this
        simp [pyFind] at h
      · simp [pyFind, hp]
  | cons c rest ih =>
      by_cases hp' : sep' <+: (c :: rest)
      · simp [pyFind, hp'] at h
      · simp [pyFind, hp'] at h
        have hp : ¬ sep <+: (c :: rest) := fun hcon => hp' (hps.trans hcon)
        simp [pyFind, hp, ih h]

theorem pyStripLeft_cons_ws {c : Char} (hc : pyWS c = true) (l : Str) :
    pyStripLeft (c :: l) = pyStripLeft l := by
  simp [pyStripLeft, List.dropWhile, hc]

theorem pyStrip_cons_ws {c : Char} (hc : pyWS c = true) (l : Str) :
    pyStrip (c :: l) = pyStrip l := by
  simp [pyStrip, pyStripLeft_cons_ws hc]

theorem pyStripRight_append_ws {c : Char} (hc : pyWS c = true) (l : Str) :
    pyStripRight (l ++ [c]) = pyStripRight l := by
  simp [pyStripRight, List.reverse_append, List.dropWhile, hc]

theorem pyStrip_append_ws {c : Char} (hc : pyWS c = true) (l : Str) :
    pyStrip (l ++ [c]) = pyStrip l := by
  unfold pyStrip pyStripLeft
  rw [List.dropWhile_append]
  by_cases he : (l.dropWhile pyWS).isEmpty
  · simp [he, List.dropWhile, hc, List.isEmpty_iff.mp he, pyStripRight]
  · simp only [he, if_false]
    exact pyStripRight_append_ws hc _

/-! ### Model of Python's `json.loads` (external library)

`json.loads` is the standard library's RFC 8259 parser.  The checkers
below model its success/failure domain: each parsing function consumes
one grammar item and returns the remaining input, or `none` on a syntax
error.  `jsonValid` accepts exactly the inputs `json.loads` accepts. -/

def jsonWS (c : Char) : Bool :=
  (c == ' ') || (c == '\t') || (c == '\n') || (c == '\r')

def skipWS (l : Str) : Str := l.dropWhile jsonWS

def isHexDigitChar (c : Char) : Bool :=
  c.isDigit || ('a' ≤ c && c ≤ 'f') || ('A' ≤ c && c ≤ 'F')

def jsonStringBody : Str → Option Str
  | [] => none
  | '"' :: rest => some rest
  | '\\' :: 'u' :: h1 :: h2 :: h3 :: h4 :: rest =>
      if isHexDigitChar h1 && isHexDigitChar h2 && isHexDigitChar h3 && isHexDigitChar h4
      then jsonStringBody rest else none
  | '\\' :: e :: rest =>
      if e = '"' ∨ e = '\\' ∨ e = '/' ∨ e = 'b' ∨ e = 'f' ∨ e = 'n' ∨
         e = 'r' ∨ e = 't'
      then jsonStringBody rest else none
  | c :: rest => if 0x20 ≤ c.val then jsonStringBody rest else none

def jsonExpPart (l : Str) : Option Str :=
  match l with
  | e :: rest =>
      if e = 'e' ∨ e = 'E' then
        let rest2 := match rest with
          | s :: r => if s = '+' ∨ s = '-' then r else s :: r
          | [] => []
        match rest2 with
        | c :: r => if c.isDigit then some (r.dropWhile Char.isDigit) else none
        | [] => none
      else some (e :: rest)
  | [] => some []

def jsonFracPart (l : Str) : Option Str :=
  match l with
  | '.' :: rest =>
      match rest with
      | c :: r =>
          if c.isDigit then jsonExpPart (r.dropWhile Char.isDigit) else none
      | [] => none
  | _ => jsonExpPart l

def jsonNumber (l : Str) : Option Str :=
  let l1 := match l with
    | '-' :: r => r
    | _ => l
  match l1 with
  | '0' :: r => jsonFracPart r
  | c :: r => if c.isDigit then jsonFracPart (r.dropWhile Char.isDigit) else none
  | [] => none

def jsonScalar (l : Str) : Option Str :=
  if ("null".data).isPrefixOf l then some (l.drop 4)
  else if ("true".data).isPrefixOf l then some (l.drop 4)
  else if ("false".data).isPrefixOf l then some (l.drop 5)
  else jsonNumber l

mutual

def jsonValue : Nat → Str → Option Str
  | 0, _ => none
  | fuel + 1, l =>
      match skipWS l with
      | '"' :: rest => jsonStringBody rest
      | '[' :: rest =>
          match skipWS rest with
          | ']' :: rem => some rem
          | r => jsonElements fuel r
      | '\x7b' :: rest =>
          match skipWS rest with
          | '\x7d' :: rem => some rem
          | r => jsonMembers fuel r
      | l' => jsonScalar l'

def jsonElements : Nat → Str → Option Str
  | 0, _ => none
  | fuel + 1, l =>
      match jsonValue fuel l with
      | none => none
      | some rem =>
          match skipWS rem with
          | ',' :: more => jsonElements fuel more
          | ']' :: more => some more
          | _ => none

def jsonMembers : Nat → Str → Option Str
  | 0, _ => none
  | fuel + 1, l =>
      match skipWS l with
      | '"' :: rest =>
          match jsonStringBody rest with
          | none => none
          | some rem =>
              match skipWS rem with
              | ':' :: more =>
                  match jsonValue fuel more with
                  | none => none
                  | some rem2 =>
                      match skipWS rem2 with
                      | ',' :: more2 => jsonMembers fuel more2
                      | '\x7d' :: more2 => some more2
                      | _ => none
              | _ => none
      | _ => none

end

/-- Acceptance predicate of `json.loads`: a whole input parses as one
JSON value (with surrounding whitespace).  The fuel `2 * length + 2`
strictly dominates the recursion depth, which consumes at least one
input character every two fuel units. -/
def jsonValid (l : Str) : Bool :=
  match jsonValue (2 * l.length + 2) l with
  | some rem => (skipWS rem).isEmpty
  | none => false

/-- `json.loads`, with the parsed value abstracted as the accepted
text: `some` on exactly the inputs `json.loads` accepts, `none` (a
raised `JSONDecodeError`) otherwise. -/
def jsonLoads (l : Str) : Option Str :=
  if jsonValid l then some l else none

/-! ### `services/ai/processor.py` — cost calculation -/

/-- Model of Python `table[k]` on a dict literal (total here; only ever
applied to keys present in the table). -/
def pyDictIndex (table : List (String × ℚ × ℚ)) (k : String) : ℚ × ℚ :=
  ((table.find? (fun p => p.1 == k)).map (fun p => p.2)).getD (0, 0)

/-- Model of Python `table.get(k, dflt)` on a dict literal. -/
def pyDictGet (table : List (String × ℚ × ℚ)) (k : String) (dflt : ℚ × ℚ) :
    ℚ × ℚ :=
  match table.find? (fun p => p.1 == k) with
  | some p => p.2
  | none => dflt

/-- The static OpenAI pricing table of `_calculate_cost_openai`
(input rate, output rate), in dollars per 1M tokens. -/
def openai_pricing : List (String × ℚ × ℚ) :=
  [("gpt-4o", (2.50, 10.00)),
   ("gpt-4o-mini", (0.15, 0.60)),
   ("gpt-4-turbo", (10.00, 30.00))]

/-- The static Anthropic pricing table of `_calculate_cost_anthropic`. -/
def anthropic_pricing : List (String × ℚ × ℚ) :=
  [("claude-3-5-sonnet-20241022", (3.00, 15.00)),
   ("claude-3-5-haiku-20241022", (0.80, 4.00))]

structure OpenAIUsage where
  prompt_tokens : Nat
  completion_tokens : Nat

structure AnthropicUsage where
  input_tokens : Nat
  output_tokens : Nat

/-- `rates = pricing.get(self.model, pricing["gpt-4o"])`. -/
def rates_openai (model : String) : ℚ × ℚ :=
  pyDictGet openai_pricing model (pyDictIndex openai_pricing "gpt-4o")

/-- `rates = pricing.get(self.model, pricing["claude-3-5-sonnet-20241022"])`. -/
def rates_anthropic (model : String) : ℚ × ℚ :=
  pyDictGet anthropic_pricing model
    (pyDictIndex anthropic_pricing "claude-3-5-sonnet-20241022")

/-- `_calculate_cost_openai` (exact rational arithmetic in place of
Python floats). -/
def calculate_cost_openai (model : String) (usage : OpenAIUsage) : ℚ :=
  let rates := rates_openai model
  let input_cost := ((usage.prompt_tokens : ℚ) / 1000000) * rates.1
  let output_cost := ((usage.completion_tokens : ℚ) / 1000000) * rates.2
  input_cost + output_cost

/-- `_calculate_cost_anthropic` (exact rational arithmetic in place of
Python floats). -/
def calculate_cost_anthropic (model : String) (usage : AnthropicUsage) : ℚ :=
  let rates := rates_anthropic model
  let input_cost := ((usage.input_tokens : ℚ) / 1000000) * rates.1
  let output_cost := ((usage.output_tokens : ℚ) / 1000000) * rates.2
  input_cost + output_cost

/-! ### `services/ai/processor.py` — response parsing -/

def fenceJson : Str := "```json".data

def fenceMark : Str := "```".data

/-- The fence-handling block of `_process_anthropic`:

    if "```json" in content:
        content = content.split("```json")[1].split("```")[0]
    elif "```" in content:
        content = content.split("```")[1].split("```")[0]
-/
def anthropicExtract (content : Str) : Str :=
  if pyContains fenceJson content then
    ((pySplit fenceMark ((pySplit fenceJson content).getD 1 [])).headD [])
  else if pyContains fenceMark content then
    ((pySplit fenceMark ((pySplit fenceMark content).getD 1 [])).headD [])
  else content

/-- Modelled from the spec: the `ProcessingError` taxonomy entry (§7) and
the Pipeline Orchestrator that consumes it are not under `src/`; per
§4.5 an unparseable LLM response fails the processing of that article.
In `_process_openai`/`_process_anthropic` the failure is the error
raised by `json.loads`. -/
inductive ProcessingError where
  | parseFailure
deriving DecidableEq, Repr

structure ProcessResult (α : Type) where
  payload : α
  input_tokens : Nat
  output_tokens : Nat
  model : String
  cost_usd : ℚ
deriving DecidableEq, Repr

/-- `_process_openai` after the provider call: `json.loads` the raw
message content (no fence handling, no `strip`), then attach `_usage`
and `_cost_usd`.  The external `json.loads` is the `parse` parameter;
its raised decode error is the `Except.error` outcome. -/
def process_openai {α : Type} (parse : Str → Option α) (model : String)
    (usage : OpenAIUsage) (content : Str) :
    Except ProcessingError (ProcessResult α) :=
  match parse content with
  | none => .error .parseFailure
  | some v =>
      .ok ⟨v, usage.prompt_tokens, usage.completion_tokens, model,
        calculate_cost_openai model usage⟩

/-- `_process_anthropic` after the provider call: strip markdown code
fences, `json.loads(content.strip())`, then attach `_usage` and
`_cost_usd`. -/
def process_anthropic {α : Type} (parse : Str → Option α) (model : String)
    (usage : AnthropicUsage) (content : Str) :
    Except ProcessingError (ProcessResult α) :=
  match parse (pyStrip (anthropicExtract content)) with
  | none => .error .parseFailure
  | some v =>
      .ok ⟨v, usage.input_tokens, usage.output_tokens, model,
        calculate_cost_anthropic model usage⟩

/-- Modelled from the spec: the Pipeline Orchestrator step that consumes
the AI Transformer's outcome is not under `src/`.  Per §4.5, on success
an Article is created and the RawArticle becomes `processed`; on failure
the RawArticle becomes `failed` and no Article is created. -/
def orchestrate_transform {α : Type}
    (r : Except ProcessingError (ProcessResult α))
    (articles : List (ProcessResult α)) : String × List (ProcessResult α) :=
  match r with
  | .ok v => ("processed", articles ++ [v])
  | .error _ => ("failed", articles)

/-! ### `models/article.py` / `schemas/article.py` / `routers/articles.py`

UUIDs are embedded as `Nat`, datetimes as `Nat` instants (`datetime.utcnow`
becomes an explicit `now` argument), `Numeric` as `ℚ`.  The async session
is embedded as explicit state passing on `DB`; each handler returns the
post-commit state together with its HTTP outcome (an early
`HTTPException` leaves the state untouched, as the raise precedes any
mutation). -/

structure Article where
  id : Nat
  slug : String
  title : String
  excerpt : String
  content : String
  category : String
  tags : List String
  significance_score : Option Nat
  cover_image_url : Option String
  source_ids : List Nat
  original_urls : List String
  status : String
  published_at : Option Nat
  ai_model : Option String
  ai_prompt_version : Option String
  processing_cost_usd : Option ℚ
  created_at : Nat
  updated_at : Nat
  created_by : Option Nat
  published_by : Option Nat
deriving DecidableEq, Repr

/-- `ArticleUpdate` (schemas/article.py): the only fields an update
request can carry.  `some v` embeds a field present in the payload
(pydantic `exclude_unset=True` drops the unset ones). -/
structure ArticleUpdate where
  title : Option String
  excerpt : Option String
  content : Option String
  category : Option String
  tags : Option (List String)
  cover_image_url : Option String
deriving DecidableEq, Repr

def ArticleUpdate.isEmptyUpdate (u : ArticleUpdate) : Bool :=
  u.title.isNone && u.excerpt.isNone && u.content.isNone &&
  u.category.isNone && u.tags.isNone && u.cover_image_url.isNone

/-- The `setattr` loop of `update_article` over
`data.model_dump(exclude_unset=True)`. -/
def apply_update (a : Article) (u : ArticleUpdate) : Article :=
  { a with
    title := u.title.getD a.title
    excerpt := u.excerpt.getD a.excerpt
    content := u.content.getD a.content
    category := u.category.getD a.category
    tags := u.tags.getD a.tags
    cover_image_url := match u.cover_image_url with
      | some v => some v
      | none => a.cover_image_url }

structure DB where
  articles : List Article
deriving DecidableEq, Repr

structure HTTPError where
  status_code : Nat
  detail : String
deriving DecidableEq, Repr

/-- `db.execute(select(Article).where(Article.id == article_id))` +
`scalar_one_or_none()`. -/
def find_article (db : DB) (article_id : Nat) : Option Article :=
  db.articles.find? (fun a => a.id == article_id)

/-- `db.commit()` of one mutated row. -/
def db_put (db : DB) (a' : Article) : DB :=
  ⟨db.articles.map (fun a => if a.id == a'.id then a' else a)⟩

/-- `PUT /articles/{article_id}` (`update_article`).  The commit's flush
performs SQLAlchemy's per-attribute net-change check: an UPDATE is
emitted only when at least one supplied value differs from the stored
one, i.e. exactly when `apply_update article data ≠ article`; only then
does the `updated_at` column's `onupdate=datetime.utcnow` hook
(models/article.py) stamp the timestamp.  A payload whose values all
equal the stored ones (in particular an empty payload) issues no UPDATE
and leaves the row untouched. -/
def update_article (db : DB) (article_id : Nat) (data : ArticleUpdate)
    (now : Nat) : DB × Except HTTPError Article :=
  match find_article db article_id with
  | none => (db, .error ⟨404, "Article not found"⟩)
  | some article =>
      let article₀ := apply_update article data
      if article₀ = article then (db, .ok article)
      else
        let article' := { article₀ with updated_at := now }
        (db_put db article', .ok article')

/-- `POST /articles/{article_id}/publish` (`publish_article`). -/
def publish_article (db : DB) (article_id : Nat) (now : Nat) :
    DB × Except HTTPError Article :=
  match find_article db article_id with
  | none => (db, .error ⟨404, "Article not found"⟩)
  | some article =>
      if article.status == "published" then
        (db, .error ⟨400, "Article already published"⟩)
      else
        let article' := { article with
          status := "published"
          published_at := some now
          updated_at := now }
        (db_put db article', .ok article')

/-- `POST /articles/{article_id}/archive` (`archive_article`): sets
`status = "archived"` and commits, returning `{"status": "archived"}`.
The flush's net-change check means an already-`archived` article
produces no UPDATE at all — the row is untouched and the `onupdate`
hook never fires; otherwise the UPDATE carries the new status and the
`updated_at` stamp. -/
def archive_article (db : DB) (article_id : Nat) (now : Nat) :
    DB × Except HTTPError String :=
  match find_article db article_id with
  | none => (db, .error ⟨404, "Article not found"⟩)
  | some article =>
      if article.status = "archived" then (db, .ok "archived")
      else
        let article' :=
          { article with status := "archived", updated_at := now }
        (db_put db article', .ok "archived")

/-! ### `services/scraper/base.py` -/

/-- `ScrapedArticle` (a `@dataclass`): `metadata` as the raw attribute,
which the declared default leaves as `None` when no argument is given. -/
structure ScrapedArticle where
  external_id : String
  external_url : String
  title : String
  content : Option String
  published_at : Option Nat
  metadata : Option (List (String × String))
deriving DecidableEq, Repr

/-- `ScrapedArticle.__post_init__`. -/
def ScrapedArticle.post_init (a : ScrapedArticle) : ScrapedArticle :=
  if a.metadata = none then { a with metadata := some [] } else a

/-- Dataclass construction: field assignment followed by
`__post_init__`.  Omitting the `metadata` argument passes the declared
default `None`, i.e. `metadata = none` here. -/
def mkScrapedArticle (external_id external_url title : String)
    (content : Option String) (published_at : Option Nat)
    (metadata : Option (List (String × String))) : ScrapedArticle :=
  ScrapedArticle.post_init
    ⟨external_id, external_url, title, content, published_at, metadata⟩

/-- The exception types `dateutil.parser.parse` is documented to raise:
`ParserError` (a `ValueError` subclass), `TypeError`, and
`OverflowError` (raised when the parsed date exceeds the largest valid
C integer).  `_parse_date`'s `except (ValueError, TypeError)` clause
catches only the first two. -/
inductive DUError where
  | valueError
  | typeError
  | overflowError
deriving DecidableEq, Repr

/-- `BaseAdapter._parse_date`.  The external `dateutil.parser.parse` is
the `du_parse` parameter; its documented failures are the `Except.error`
outcomes.  The `try` block catches `ValueError` and `TypeError`
(returning `None`); an `OverflowError` is not caught and propagates to
the caller, which the result type records as `Except.error`.  The falsy
test `if not date_str` accepts both `None` and the empty string, so the
argument is embedded as `Option String`. -/
def parse_date (du_parse : String → Except DUError Nat)
    (date_str : Option String) : Except DUError (Option Nat) :=
  match date_str with
  | none => .ok none
  | some s =>
      if s = "" then .ok none
      else
        match du_parse s with
        | .ok d => .ok (some d)
        | .error .valueError => .ok none
        | .error .typeError => .ok none
        | .error .overflowError => .error .overflowError

/-! ### Claims -/

theorem rates_openai_unknown {model : String}
    (h : model ∉ openai_pricing.map Prod.fst) :
    rates_openai model = pyDictIndex openai_pricing "gpt-4o" := by
  unfold rates_openai pyDictGet
  have hnone : openai_pricing.find? (fun p => p.1 == model) = none := by
    rw [List.find?_eq_none]
    intro p hp
    simp only [beq_iff_eq]
    intro he
    exact h (he ▸ List.mem_map_of_mem Prod.fst hp)
  rw [hnone]

theorem rates_anthropic_unknown {model : String}
    (h : model ∉ anthropic_pricing.map Prod.fst) :
    rates_anthropic model =
      pyDictIndex anthropic_pricing "claude-3-5-sonnet-20241022" := by
  unfold rates_anthropic pyDictGet
  have hnone : anthropic_pricing.find? (fun p => p.1 == model) = none := by
    rw [List.find?_eq_none]
    intro p hp
    simp only [beq_iff_eq]
    intro he
    exact h (he ▸ List.mem_map_of_mem Prod.fst hp)
  rw [hnone]

/-- C1: For every AI call, the computed processing cost equals
`(input_tokens / 1e6) * input_rate + (output_tokens / 1e6) * output_rate`
with the rates taken from the static per-model pricing table (on both
provider paths); in particular, for the model with input rate 2.50 and
output rate 10.00 per 1M tokens (`"gpt-4o"`), 1000 input tokens and 500
output tokens cost exactly 0.0075. -/
theorem C1_cost_formula :
    (∀ (model : String) (u : OpenAIUsage),
      calculate_cost_openai model u =
        (u.prompt_tokens : ℚ) / 1000000 * (rates_openai model).1 +
        (u.completion_tokens : ℚ) / 1000000 * (rates_openai model).2) ∧
    (∀ (model : String) (u : AnthropicUsage),
      calculate_cost_anthropic model u =
        (u.input_tokens : ℚ) / 1000000 * (rates_anthropic model).1 +
        (u.output_tokens : ℚ) / 1000000 * (rates_anthropic model).2) ∧
    rates_openai "gpt-4o" = (2.50, 10.00) ∧
    calculate_cost_openai "gpt-4o" ⟨1000, 500⟩ = 0.0075 := by
  refine ⟨fun _ _ => rfl, fun _ _ => rfl, rfl, ?_⟩
  norm_num [calculate_cost_openai, rates_openai, pyDictGet, pyDictIndex,
    openai_pricing]

/-- C2: For every model identifier not present in the pricing table, cost
calculation falls back to the designated default model's rates
(`"gpt-4o"` on the OpenAI path, `"claude-3-5-sonnet-20241022"` on the
Anthropic path) and returns a cost; it never fails for lack of a table
entry (the functions are total). -/
theorem C2_unknown_model_default_rates :
    (∀ (model : String) (u : OpenAIUsage),
      model ∉ openai_pricing.map Prod.fst →
      calculate_cost_openai model u = calculate_cost_openai "gpt-4o" u) ∧
    (∀ (model : String) (u : AnthropicUsage),
      model ∉ anthropic_pricing.map Prod.fst →
      calculate_cost_anthropic model u =
        calculate_cost_anthropic "claude-3-5-sonnet-20241022" u) := by
  constructor
  · intro model u h
    unfold calculate_cost_openai
    rw [rates_openai_unknown h]
    rfl
  · intro model u h
    unfold calculate_cost_anthropic
    rw [rates_anthropic_unknown h]
    rfl

theorem C2_witness :
    "gpt-5" ∉ openai_pricing.map Prod.fst ∧
    "claude-4" ∉ anthropic_pricing.map Prod.fst ∧
    calculate_cost_openai "gpt-5" ⟨1000, 500⟩ =
      calculate_cost_openai "gpt-4o" ⟨1000, 500⟩ ∧
    calculate_cost_anthropic "claude-4" ⟨1000, 500⟩ =
      calculate_cost_anthropic "claude-3-5-sonnet-20241022" ⟨1000, 500⟩ := by
  have h1 : "gpt-5" ∉ openai_pricing.map Prod.fst := by decide
  have h2 : "claude-4" ∉ anthropic_pricing.map Prod.fst := by decide
  exact ⟨h1, h2, C2_unknown_model_default_rates.1 "gpt-5" ⟨1000, 500⟩ h1,
    C2_unknown_model_default_rates.2 "claude-4" ⟨1000, 500⟩ h2⟩

/-- C9: Every `ScrapedArticle` constructed with `metadata=None` (which is
also what omitting the argument passes, as the declared default) has the
empty map as `metadata` after construction, and no construction ever
leaves `metadata` equal to `None`. -/
theorem C9_metadata_never_none :
    (∀ eid url title content pub,
      (mkScrapedArticle eid url title content pub none).metadata =
        some []) ∧
    (∀ eid url title content pub m,
      (mkScrapedArticle eid url title content pub m).metadata ≠ none) := by
  constructor
  · intro eid url title content pub
    rfl
  · intro eid url title content pub m
    cases m with
    | none => simp [mkScrapedArticle, ScrapedArticle.post_init]
    | some mm => simp [mkScrapedArticle, ScrapedArticle.post_init]

/-- C10 (amended): `_parse_date` returns `None` on `None` and on the
empty string, returns the parsed datetime on success, and returns `None`
when `dateutil.parser.parse` fails with one of the two exceptions the
`try` block catches (`ValueError`, `TypeError`); dateutil's third
documented failure, `OverflowError`, is not caught and propagates to the
caller. -/
theorem C10_parse_date_behavior
    (du_parse : String → Except DUError Nat) (s : String) (d : Nat) :
    parse_date du_parse none = .ok none ∧
    parse_date du_parse (some "") = .ok none ∧
    (s ≠ "" → du_parse s = .ok d →
      parse_date du_parse (some s) = .ok (some d)) ∧
    (s ≠ "" → du_parse s = .error .valueError →
      parse_date du_parse (some s) = .ok none) ∧
    (s ≠ "" → du_parse s = .error .typeError →
      parse_date du_parse (some s) = .ok none) ∧
    (s ≠ "" → du_parse s = .error .overflowError →
      parse_date du_parse (some s) = .error .overflowError) := by
  refine ⟨rfl, rfl, fun hs hd => ?_, fun hs hd => ?_, fun hs hd => ?_,
    fun hs hd => ?_⟩
  all_goals
    simp only [parse_date]
    rw [if_neg hs, hd]

/-- A `dateutil.parser.parse` behaviour exercising every documented
outcome: success, the two caught exceptions, and `OverflowError` (which
dateutil raises when the parsed date exceeds the largest valid C
integer, e.g. on an astronomically large year). -/
def du_fix : String → Except DUError Nat :=
  fun s =>
    if s = "2024-06-01" then .ok 7
    else if s = "99999999999999999999-01-01" then .error .overflowError
    else if s = "typeerror-input" then .error .typeError
    else .error .valueError

theorem C10_witness :
    parse_date du_fix none = .ok none ∧
    parse_date du_fix (some "") = .ok none ∧
    parse_date du_fix (some "2024-06-01") = .ok (some 7) ∧
    parse_date du_fix (some "gibberish") = .ok none ∧
    parse_date du_fix (some "typeerror-input") = .ok none ∧
    parse_date du_fix (some "99999999999999999999-01-01") =
      .error .overflowError := by
  obtain ⟨h1, h2, h3, _, _, _⟩ :=
    C10_parse_date_behavior du_fix "2024-06-01" 7
  obtain ⟨_, _, _, h4, _, _⟩ := C10_parse_date_behavior du_fix "gibberish" 0
  obtain ⟨_, _, _, _, h5, _⟩ :=
    C10_parse_date_behavior du_fix "typeerror-input" 0
  obtain ⟨_, _, _, _, _, h6⟩ :=
    C10_parse_date_behavior du_fix "99999999999999999999-01-01" 0
  exact ⟨h1, h2, h3 (by decide) rfl, h4 (by decide) rfl, h5 (by decide) rfl,
    h6 (by decide) rfl⟩

/-- C10 (counterexample to the claim as stated): `_parse_date` is not
total over string inputs — on a date whose year overflows,
`dateutil.parser.parse` raises `OverflowError`, which
`except (ValueError, TypeError)` does not catch, so the helper raises
to its caller instead of returning a datetime or `None`. -/
theorem C10_counterexample :
    parse_date du_fix (some "99999999999999999999-01-01") =
      .error .overflowError ∧
    (parse_date du_fix (some "99999999999999999999-01-01")).isOk = false := by
  exact ⟨rfl, rfl⟩

def articleA : Article :=
  { id := 1, slug := "s", title := "t", excerpt := "e", content := "c",
    category := "news", tags := ["x"], significance_score := some 5,
    cover_image_url := none, source_ids := [10], original_urls := ["u"],
    status := "draft", published_at := none, ai_model := some "gpt-4o",
    ai_prompt_version := some "v1", processing_cost_usd := none,
    created_at := 3, updated_at := 3, created_by := none,
    published_by := none }

def articleArch : Article := { articleA with id := 2, status := "archived" }

def articlePub : Article :=
  { articleA with id := 3, status := "published", published_at := some 4 }

def dbA : DB := ⟨[articleA, articleArch, articlePub]⟩

def updTitle : ArticleUpdate := ⟨some "t2", none, none, none, none, none⟩

/-- C3 (amended): publishing an existing article succeeds from every
status other than `published` — draft, review, and also archived —
setting the status to `published` and stamping `published_at`;
publishing an already-`published` article is rejected with a 400 client
error. -/
theorem C3_publish_transition (db : DB) (aid now : Nat) (a : Article)
    (hfind : find_article db aid = some a) :
    (a.status ≠ "published" →
      publish_article db aid now =
        (db_put db
           { a with status := "published", published_at := some now,
                    updated_at := now },
         .ok { a with status := "published", published_at := some now,
                      updated_at := now })) ∧
    (a.status = "published" →
      publish_article db aid now =
        (db, .error ⟨400, "Article already published"⟩)) := by
  unfold publish_article
  rw [hfind]
  constructor
  · intro h
    simp [h]
  · intro h
    simp [h]

/-- C3 (counterexample to the claim as stated): publishing is claimed to
succeed only from `draft` or `review`, but an `archived` article — a
fourth status — publishes successfully. -/
theorem C3_counterexample :
    find_article dbA 2 = some articleArch ∧
    articleArch.status = "archived" ∧
    (publish_article dbA 2 9).2 =
      .ok { articleArch with status := "published", published_at := some 9,
                             updated_at := 9 } := by
  exact ⟨rfl, rfl, rfl⟩

theorem C3_witness :
    find_article dbA 1 = some articleA ∧
    articleA.status = "draft" ∧
    publish_article dbA 1 9 =
      (db_put dbA
         { articleA with status := "published", published_at := some 9,
                         updated_at := 9 },
       .ok { articleA with status := "published", published_at := some 9,
                           updated_at := 9 }) ∧
    find_article dbA 3 = some articlePub ∧
    publish_article dbA 3 9 =
      (dbA, .error ⟨400, "Article already published"⟩) := by
  refine ⟨rfl, rfl, ?_, rfl, ?_⟩
  · exact (C3_publish_transition dbA 1 9 articleA rfl).1 (by decide)
  · exact (C3_publish_transition dbA 3 9 articlePub rfl).2 rfl

/-- C4: publishing an already-published article, and editing or
publishing a nonexistent article, each return a descriptive client error
(404 "Article not found", 400 "Article already published") with the
stored state returned exactly as it was — the raise precedes any
mutation. -/
theorem C4_error_paths_pure (db : DB) (aid now : Nat) (u : ArticleUpdate) :
    (find_article db aid = none →
      update_article db aid u now =
        (db, .error ⟨404, "Article not found"⟩) ∧
      publish_article db aid now =
        (db, .error ⟨404, "Article not found"⟩)) ∧
    (∀ a, find_article db aid = some a → a.status = "published" →
      publish_article db aid now =
        (db, .error ⟨400, "Article already published"⟩)) := by
  constructor
  · intro h
    constructor
    · unfold update_article
      rw [h]
    · unfold publish_article
      rw [h]
  · intro a hfind hs
    unfold publish_article
    rw [hfind]
    simp [hs]

theorem C4_witness :
    find_article dbA 99 = none ∧
    update_article dbA 99 updTitle 9 =
      (dbA, .error ⟨404, "Article not found"⟩) ∧
    publish_article dbA 99 9 = (dbA, .error ⟨404, "Article not found"⟩) ∧
    find_article dbA 3 = some articlePub ∧
    publish_article dbA 3 9 =
      (dbA, .error ⟨400, "Article already published"⟩) := by
  obtain ⟨h1, h2⟩ := (C4_error_paths_pure dbA 99 9 updTitle).1 rfl
  exact ⟨rfl, h1, h2, rfl,
    (C4_error_paths_pure dbA 3 9 updTitle).2 articlePub rfl rfl⟩

/-- C5 (amended): an update on an existing article can modify only the
six `ArticleUpdate` fields (title, excerpt, content, category, tags,
cover_image_url), each taking the payload value exactly when set; every
other stored field — status, slug, source_ids, original_urls,
published_at, ai_model, ai_prompt_version, processing cost,
significance_score, audit identities — is unchanged, except the audit
timestamp `updated_at`: when at least one supplied value differs from
the stored one the commit issues an UPDATE and the `onupdate` hook
stamps `updated_at`; when every supplied value equals the stored one
(in particular an empty payload) no UPDATE is issued and the row,
including `updated_at`, is returned untouched. -/
theorem C5_update_frame (db : DB) (aid now : Nat) (u : ArticleUpdate)
    (a a' : Article) (hfind : find_article db aid = some a)
    (hok : (update_article db aid u now).2 = .ok a') :
    a'.id = a.id ∧ a'.slug = a.slug ∧ a'.status = a.status ∧
    a'.source_ids = a.source_ids ∧ a'.original_urls = a.original_urls ∧
    a'.published_at = a.published_at ∧ a'.ai_model = a.ai_model ∧
    a'.ai_prompt_version = a.ai_prompt_version ∧
    a'.processing_cost_usd = a.processing_cost_usd ∧
    a'.significance_score = a.significance_score ∧
    a'.created_at = a.created_at ∧ a'.created_by = a.created_by ∧
    a'.published_by = a.published_by ∧
    a'.title = u.title.getD a.title ∧
    a'.excerpt = u.excerpt.getD a.excerpt ∧
    a'.content = u.content.getD a.content ∧
    a'.category = u.category.getD a.category ∧
    a'.tags = u.tags.getD a.tags ∧
    a'.cover_image_url = (match u.cover_image_url with
      | some v => some v
      | none => a.cover_image_url) ∧
    (apply_update a u = a → a' = a) ∧
    (apply_update a u ≠ a → a'.updated_at = now) := by
  simp only [update_article, hfind] at hok
  by_cases he : apply_update a u = a
  · rw [if_pos he] at hok
    simp at hok
    subst hok
    refine ⟨rfl, rfl, rfl, rfl, rfl, rfl, rfl, rfl, rfl, rfl, rfl, rfl,
      rfl, ?_, ?_, ?_, ?_, ?_, ?_, fun _ => rfl, fun hne => absurd he hne⟩
    · exact (congrArg Article.title he).symm
    · exact (congrArg Article.excerpt he).symm
    · exact (congrArg Article.content he).symm
    · exact (congrArg Article.category he).symm
    · exact (congrArg Article.tags he).symm
    · exact (congrArg Article.cover_image_url he).symm
  · rw [if_neg he] at hok
    simp at hok
    subst hok
    exact ⟨rfl, rfl, rfl, rfl, rfl, rfl, rfl, rfl, rfl, rfl, rfl, rfl,
      rfl, rfl, rfl, rfl, rfl, rfl, rfl, fun h => absurd h he, fun _ => rfl⟩

/-- C5 (counterexample to the claim as stated): a payload setting only
the allow-listed field `title` also changes `updated_at` — a field
outside the listed six — from 3 to 99, via the column's
`onupdate=datetime.utcnow` hook. -/
theorem C5_counterexample :
    find_article dbA 1 = some articleA ∧
    articleA.updated_at = 3 ∧
    (update_article dbA 1 updTitle 99).2 =
      .ok { articleA with title := "t2", updated_at := 99 } ∧
    ({ articleA with title := "t2",
                     updated_at := 99 } : Article).updated_at ≠
      articleA.updated_at := by
  exact ⟨rfl, rfl, rfl, by decide⟩

theorem C5_witness :
    find_article dbA 1 = some articleA ∧
    (update_article dbA 1 updTitle 99).2 =
      .ok { articleA with title := "t2", updated_at := 99 } ∧
    ({ articleA with title := "t2", updated_at := 99 } : Article).status =
      articleA.status ∧
    ({ articleA with title := "t2", updated_at := 99 } : Article).slug =
      articleA.slug ∧
    ({ articleA with title := "t2",
                     updated_at := 99 } : Article).published_at =
      articleA.published_at ∧
    ({ articleA with title := "t2", updated_at := 99 } : Article).title =
      updTitle.title.getD articleA.title ∧
    apply_update articleA updTitle ≠ articleA ∧
    ({ articleA with title := "t2",
                     updated_at := 99 } : Article).updated_at = 99 := by
  obtain ⟨_, h_slug, h_status, _, _, h_pub, _, _, _, _, _, _, _, h_title, _,
    _, _, _, _, _, h_stamp⟩ :=
    C5_update_frame dbA 1 99 updTitle articleA
      { articleA with title := "t2", updated_at := 99 } rfl rfl
  have hne : apply_update articleA updTitle ≠ articleA := by decide
  exact ⟨rfl, rfl, h_status, h_slug, h_pub, h_title, hne, h_stamp hne⟩

/-- C8 (amended): archiving an existing article whose status is not
already `archived` is a single commit of one updated row, setting
`status := "archived"` and stamping the `updated_at` timestamp (the
column's `onupdate` hook) in that same update, leaving every other
field unchanged; archiving an already-`archived` article is a
no-net-change commit — the flush issues no UPDATE, no timestamp is
stamped, and the row is returned untouched while the endpoint still
answers `{"status": "archived"}`. -/
theorem C8_archive_transition (db : DB) (aid now : Nat) (a : Article)
    (hfind : find_article db aid = some a) :
    (a.status = "archived" →
      archive_article db aid now = (db, .ok "archived")) ∧
    (a.status ≠ "archived" →
      ∃ a', archive_article db aid now = (db_put db a', .ok "archived") ∧
        a'.status = "archived" ∧ a'.updated_at = now ∧
        a'.id = a.id ∧ a'.slug = a.slug ∧ a'.title = a.title ∧
        a'.excerpt = a.excerpt ∧ a'.content = a.content ∧
        a'.category = a.category ∧ a'.tags = a.tags ∧
        a'.significance_score = a.significance_score ∧
        a'.cover_image_url = a.cover_image_url ∧
        a'.source_ids = a.source_ids ∧ a'.original_urls = a.original_urls ∧
        a'.published_at = a.published_at ∧ a'.ai_model = a.ai_model ∧
        a'.ai_prompt_version = a.ai_prompt_version ∧
        a'.processing_cost_usd = a.processing_cost_usd ∧
        a'.created_at = a.created_at ∧ a'.created_by = a.created_by ∧
        a'.published_by = a.published_by) := by
  constructor
  · intro h
    simp only [archive_article, hfind]
    rw [if_pos h]
  · intro h
    simp only [archive_article, hfind]
    rw [if_neg h]
    exact ⟨{ a with status := "archived", updated_at := now }, rfl, rfl,
      rfl, rfl, rfl, rfl, rfl, rfl, rfl, rfl, rfl, rfl, rfl, rfl, rfl,
      rfl, rfl, rfl, rfl, rfl, rfl⟩

/-- C8 (counterexample to the claim as stated): archiving an article
that is already `archived` — a reachable input, e.g. calling the
archive endpoint twice — performs no status-plus-timestamp update at
all: the state is returned unchanged and `updated_at` keeps its old
value 3 rather than the call's timestamp 9, while the endpoint still
reports success. -/
theorem C8_counterexample :
    find_article dbA 2 = some articleArch ∧
    articleArch.status = "archived" ∧
    articleArch.updated_at = 3 ∧
    archive_article dbA 2 9 = (dbA, .ok "archived") ∧
    (find_article (archive_article dbA 2 9).1 2).map Article.updated_at =
      some 3 ∧
    (3 : Nat) ≠ 9 := by
  exact ⟨rfl, rfl, rfl, rfl, rfl, by decide⟩

theorem C8_witness :
    find_article dbA 1 = some articleA ∧
    articleA.status ≠ "archived" ∧
    (∃ a', archive_article dbA 1 9 = (db_put dbA a', .ok "archived") ∧
      a'.status = "archived" ∧ a'.updated_at = 9 ∧
      a'.title = articleA.title ∧
      a'.published_at = articleA.published_at) ∧
    find_article dbA 2 = some articleArch ∧
    archive_article dbA 2 9 = (dbA, .ok "archived") := by
  obtain ⟨_, htrans⟩ := C8_archive_transition dbA 1 9 articleA rfl
  obtain ⟨a', h1, h2, h3, _, _, h6, _, _, _, _, _, _, _, _, h15, _⟩ :=
    htrans (by decide)
  have hnoop := (C8_archive_transition dbA 2 9 articleArch rfl).1 rfl
  exact ⟨rfl, by decide, ⟨a', h1, h2, h3, h6, h15⟩, rfl, hnoop⟩

theorem fenceMark_ne_nil : fenceMark ≠ [] := by decide

theorem fenceJson_ne_nil : fenceJson ≠ [] := by decide

theorem nl_not_mem_fenceMark : '\n' ∉ fenceMark := by decide

theorem nl_not_mem_fenceJson : '\n' ∉ fenceJson := by decide

theorem fenceMark_pfx_fenceJson : fenceMark <+: fenceJson := ⟨"json".data, rfl⟩

theorem pyFind_fenceJson_fenceMark : pyFind fenceJson fenceMark = none := by
  decide

theorem pyFind_fenceMark_self : pyFind fenceMark fenceMark = some 0 := by
  decide

theorem pyFind_fence_tail {sep : Str} (hne : sep ≠ []) (hnl : '\n' ∉ sep)
    {s : Str} (hs : pyFind sep s = none) (t : Str) :
    pyFind sep ('\n' :: (s ++ '\n' :: t)) =
      (pyFind sep t).map (· + (s.length + 2)) := by
  rw [pyFind_cons_not_mem hne hnl, pyFind_sandwich hne hnl hs,
    pyFind_cons_not_mem hne hnl]
  cases pyFind sep t with
  | none => rfl
  | some k =>
      simp
      omega

theorem take_fence_seg (s t : Str) :
    ('\n' :: (s ++ '\n' :: t)).take (s.length + 2) = '\n' :: (s ++ ['\n']) := by
  show ('\n' :: (s ++ '\n' :: t)).take ((s.length + 1) + 1) = _
  rw [List.take_succ_cons]
  congr 1
  rw [List.take_append 1]
  rfl

/-- The payload as Anthropic wraps it in a fenced block with a `json`
language tag: `"```json\n" + s + "\n```"`. -/
def wrapJsonFence (s : Str) : Str :=
  fenceJson ++ '\n' :: (s ++ '\n' :: fenceMark)

/-- The payload wrapped in a plain fenced block: `"```\n" + s + "\n```"`. -/
def wrapFence (s : Str) : Str :=
  fenceMark ++ '\n' :: (s ++ '\n' :: fenceMark)

theorem anthropicExtract_wrapJsonFence {s : Str}
    (hs : pyFind fenceMark s = none) :
    anthropicExtract (wrapJsonFence s) = '\n' :: (s ++ ['\n']) := by
  have hsJ : pyFind fenceJson s = none :=
    pyFind_none_mono fenceMark_pfx_fenceJson hs
  have hfind0 : pyFind fenceJson (wrapJsonFence s) = some 0 :=
    pyFind_append_right _ _
  have hcont : pyContains fenceJson (wrapJsonFence s) = true := by
    simp [pyContains, hfind0]
  have hrest : pyFind fenceJson ('\n' :: (s ++ '\n' :: fenceMark)) = none := by
    rw [pyFind_fence_tail fenceJson_ne_nil nl_not_mem_fenceJson hsJ]
    simp [pyFind_fenceJson_fenceMark]
  have hdrop : (wrapJsonFence s).drop (0 + fenceJson.length) =
      '\n' :: (s ++ '\n' :: fenceMark) := by
    show (fenceJson ++ _).drop _ = _
    rw [Nat.zero_add, List.drop_left]
  have hsplit1 : pySplit fenceJson (wrapJsonFence s) =
      [[], '\n' :: (s ++ '\n' :: fenceMark)] := by
    rw [pySplit_of_some fenceJson_ne_nil hfind0, hdrop, List.take_zero,
      pySplit_of_none fenceJson_ne_nil hrest]
  have hfindM : pyFind fenceMark ('\n' :: (s ++ '\n' :: fenceMark)) =
      some (s.length + 2) := by
    rw [pyFind_fence_tail fenceMark_ne_nil nl_not_mem_fenceMark hs]
    simp [pyFind_fenceMark_self]
  have hsplit2 : (pySplit fenceMark
      ('\n' :: (s ++ '\n' :: fenceMark))).headD [] = '\n' :: (s ++ ['\n']) := by
    rw [pySplit_of_some fenceMark_ne_nil hfindM]
    show ('\n' :: (s ++ '\n' :: fenceMark)).take (s.length + 2) = _
    exact take_fence_seg s fenceMark
  simp only [anthropicExtract, hcont, if_true]
  rw [hsplit1]
  exact hsplit2

theorem anthropicExtract_wrapFence {s : Str}
    (hs : pyFind fenceMark s = none) :
    anthropicExtract (wrapFence s) = '\n' :: (s ++ ['\n']) := by
  have hsJ : pyFind fenceJson s = none :=
    pyFind_none_mono fenceMark_pfx_fenceJson hs
  have hnoJ : pyFind fenceJson (wrapFence s) = none := by
    show pyFind fenceJson (fenceMark ++ '\n' :: (s ++ '\n' :: fenceMark)) = none
    rw [pyFind_sandwich fenceJson_ne_nil nl_not_mem_fenceJson
      pyFind_fenceJson_fenceMark]
    rw [pyFind_fence_tail fenceJson_ne_nil nl_not_mem_fenceJson hsJ]
    simp [pyFind_fenceJson_fenceMark]
  have hcontJ : pyContains fenceJson (wrapFence s) = false := by
    simp [pyContains, hnoJ]
  have hfind0 : pyFind fenceMark (wrapFence s) = some 0 :=
    pyFind_append_right _ _
  have hcontM : pyContains fenceMark (wrapFence s) = true := by
    simp [pyContains, hfind0]
  have hfindM : pyFind fenceMark ('\n' :: (s ++ '\n' :: fenceMark)) =
      some (s.length + 2) := by
    rw [pyFind_fence_tail fenceMark_ne_nil nl_not_mem_fenceMark hs]
    simp [pyFind_fenceMark_self]
  have hdrop1 : (wrapFence s).drop (0 + fenceMark.length) =
      '\n' :: (s ++ '\n' :: fenceMark) := by
    show (fenceMark ++ _).drop _ = _
    rw [Nat.zero_add, List.drop_left]
  have hdrop2 : ('\n' :: (s ++ '\n' :: fenceMark)).drop
      (s.length + 2 + fenceMark.length) = [] := by
    apply List.drop_eq_nil_of_le
    simp [fenceMark]
  have hsplitrest : pySplit fenceMark ('\n' :: (s ++ '\n' :: fenceMark)) =
      ['\n' :: (s ++ ['\n']), []] := by
    rw [pySplit_of_some fenceMark_ne_nil hfindM, hdrop2, take_fence_seg,
      pySplit_of_none fenceMark_ne_nil (pyFind_nil _ fenceMark_ne_nil)]
  have hsplit1 : pySplit fenceMark (wrapFence s) =
      [[], '\n' :: (s ++ ['\n']), []] := by
    rw [pySplit_of_some fenceMark_ne_nil hfind0, hdrop1, List.take_zero,
      hsplitrest]
  have hfindseg : pyFind fenceMark ('\n' :: (s ++ ['\n'])) = none := by
    rw [pyFind_fence_tail fenceMark_ne_nil nl_not_mem_fenceMark hs []]
    simp [pyFind_nil _ fenceMark_ne_nil]
  have hsplitseg : pySplit fenceMark ('\n' :: (s ++ ['\n'])) =
      ['\n' :: (s ++ ['\n'])] :=
    pySplit_of_none fenceMark_ne_nil hfindseg
  simp only [anthropicExtract, hcontJ, hcontM, Bool.false_eq_true, if_false,
    if_true]
  rw [hsplit1]
  show (pySplit fenceMark ('\n' :: (s ++ ['\n']))).headD [] = _
  rw [hsplitseg]
  rfl

theorem anthropicExtract_nofence {content : Str}
    (h : pyFind fenceMark content = none) :
    anthropicExtract content = content := by
  have hJ : pyFind fenceJson content = none :=
    pyFind_none_mono fenceMark_pfx_fenceJson h
  simp [anthropicExtract, pyContains, h, hJ]

theorem pyStrip_fence_seg (s : Str) :
    pyStrip ('\n' :: (s ++ ['\n'])) = pyStrip s := by
  rw [pyStrip_cons_ws (by decide), pyStrip_append_ws (by decide)]

/-- C6 (amended): on the Anthropic path — the only path with fence
handling — a response wrapping its JSON payload in markdown code fences,
with or without a `json` language tag, is processed exactly as the
unfenced payload: the fencing is stripped before parsing, so a fenced
but otherwise well-formed JSON response parses successfully.  The OpenAI
path parses the raw message content directly (it relies on the
provider's JSON response format). -/
theorem C6_anthropic_fence_transparent {α : Type} (parse : Str → Option α)
    (model : String) (au : AnthropicUsage) (s : Str)
    (hs : pyContains fenceMark s = false) :
    process_anthropic parse model au (wrapJsonFence s) =
      process_anthropic parse model au s ∧
    process_anthropic parse model au (wrapFence s) =
      process_anthropic parse model au s ∧
    (∀ v, parse (pyStrip s) = some v →
      process_anthropic parse model au (wrapJsonFence s) =
        .ok ⟨v, au.input_tokens, au.output_tokens, model,
          calculate_cost_anthropic model au⟩) := by
  have hfind : pyFind fenceMark s = none := by
    cases hf : pyFind fenceMark s with
    | none => rfl
    | some k =>
        rw [pyContains, hf] at hs
        cases hs
  have hkey1 : pyStrip (anthropicExtract (wrapJsonFence s)) =
      pyStrip (anthropicExtract s) := by
    rw [anthropicExtract_wrapJsonFence hfind, anthropicExtract_nofence hfind,
      pyStrip_fence_seg]
  have hkey2 : pyStrip (anthropicExtract (wrapFence s)) =
      pyStrip (anthropicExtract s) := by
    rw [anthropicExtract_wrapFence hfind, anthropicExtract_nofence hfind,
      pyStrip_fence_seg]
  refine ⟨?_, ?_, ?_⟩
  · unfold process_anthropic
    rw [hkey1]
  · unfold process_anthropic
    rw [hkey2]
  · intro v hv
    unfold process_anthropic
    rw [hkey1, anthropicExtract_nofence hfind, hv]

/-- C6 (counterexample to the claim as stated): the claim covers both
provider paths (`_process_openai` is among its sources), but the OpenAI
path performs no fence stripping: a well-formed JSON payload wrapped in
a ```json fence fails to parse there. -/
theorem C6_counterexample :
    jsonValid "\x7b\"title\": \"T\"\x7d".data = true ∧
    process_openai jsonLoads "gpt-4o" ⟨1, 1⟩
      "```json\n\x7b\"title\": \"T\"\x7d\n```".data =
      .error .parseFailure := by
  exact ⟨by decide, by rfl⟩

theorem C6_witness :
    pyContains fenceMark "\x7b\"a\": 1\x7d".data = false ∧
    process_anthropic jsonLoads "claude-3-5-sonnet-20241022" ⟨2, 3⟩
      (wrapJsonFence "\x7b\"a\": 1\x7d".data) =
      process_anthropic jsonLoads "claude-3-5-sonnet-20241022" ⟨2, 3⟩
        "\x7b\"a\": 1\x7d".data ∧
    process_anthropic jsonLoads "claude-3-5-sonnet-20241022" ⟨2, 3⟩
      (wrapFence "\x7b\"a\": 1\x7d".data) =
      process_anthropic jsonLoads "claude-3-5-sonnet-20241022" ⟨2, 3⟩
        "\x7b\"a\": 1\x7d".data := by
  have h := C6_anthropic_fence_transparent jsonLoads
    "claude-3-5-sonnet-20241022" ⟨2, 3⟩ "\x7b\"a\": 1\x7d".data (by decide)
  exact ⟨by decide, h.1, h.2.1⟩

/-- C7: on both provider paths, a response whose content — after fence
stripping on the Anthropic path — is not parseable as JSON makes the
process step fail with a `ProcessingError` instead of returning a
result, and the (spec-modelled) orchestrator records the RawArticle as
`failed` and creates no Article from it. -/
theorem C7_unparseable_is_error {α : Type} (parse : Str → Option α)
    (model : String) (ou : OpenAIUsage) (au : AnthropicUsage)
    (content : Str) (articles : List (ProcessResult α)) :
    (parse (pyStrip (anthropicExtract content)) = none →
      process_anthropic parse model au content = .error .parseFailure ∧
      orchestrate_transform (process_anthropic parse model au content)
        articles = ("failed", articles)) ∧
    (parse content = none →
      process_openai parse model ou content = .error .parseFailure ∧
      orchestrate_transform (process_openai parse model ou content)
        articles = ("failed", articles)) := by
  constructor
  · intro h
    have hp : process_anthropic parse model au content =
        .error .parseFailure := by
      unfold process_anthropic
      rw [h]
    exact ⟨hp, by rw [hp]; rfl⟩
  · intro h
    have hp : process_openai parse model ou content =
        .error .parseFailure := by
      unfold process_openai
      rw [h]
    exact ⟨hp, by rw [hp]; rfl⟩

theorem C7_witness :
    jsonLoads (pyStrip (anthropicExtract "not json at all".data)) = none ∧
    process_anthropic jsonLoads "claude-3-5-sonnet-20241022" ⟨2, 3⟩
      "not json at all".data = .error .parseFailure ∧
    orchestrate_transform
      (process_anthropic jsonLoads "claude-3-5-sonnet-20241022" ⟨2, 3⟩
        "not json at all".data) [] = ("failed", []) ∧
    jsonLoads "oops".data = none ∧
    process_openai jsonLoads "gpt-4o" ⟨1, 1⟩ "oops".data =
      .error .parseFailure ∧
    orchestrate_transform (process_openai jsonLoads "gpt-4o" ⟨1, 1⟩
      "oops".data) ([] : List (ProcessResult Str)) = ("failed", []) := by
  have h1 : jsonLoads (pyStrip (anthropicExtract "not json at all".data)) =
      none := by decide
  have h2 : jsonLoads "oops".data = none := by decide
  obtain ⟨ha, hb⟩ := (C7_unparseable_is_error jsonLoads
    "claude-3-5-sonnet-20241022" ⟨1, 1⟩ ⟨2, 3⟩ "not json at all".data []).1 h1
  obtain ⟨hc, hd⟩ := (C7_unparseable_is_error jsonLoads "gpt-4o"
    ⟨1, 1⟩ ⟨2, 3⟩ "oops".data ([] : List (ProcessResult Str))).2 h2
  exact ⟨h1, ha, hb, h2, hc, hd⟩
